import Mathlib

/-
Verification of the fan-out broker demos in the proxy-evals repository.

The development shallowly embeds three components of the repository:
  * the long-polling MessageBroker of src/long-polling/main.go,
  * the SSE Broker of src/sse/main.go,
  * the WebSocket Hub of src/streaming/main.go (second program in the file).

Go machine integers stay well inside int64 range in every scenario the
theorems speak about, so ids are modelled as unbounded Int; durations are
modelled by the number of remaining 100 ms polling rounds (fuel); channels
are modelled as explicit buffers with a closed flag, and the heap of
channels/connections as a function from an opaque handle (Nat) to that
state.
-/

namespace LongPolling

/-- Embeds the Message struct of src/long-polling/main.go lines 13-17:
ID int, Text string, Timestamp time.Time (time modelled as Nat). -/
structure Message where
  id : Int
  text : String
  timestamp : Nat
deriving DecidableEq

/-- Embeds MessageBroker (lines 19-23): the messages slice and nextID.
The mutex only serializes access and has no sequential content. -/
structure MessageBroker where
  messages : List Message
  nextID : Int
deriving DecidableEq

/-- Embeds NewMessageBroker (lines 25-30): empty slice, nextID = 1. -/
def NewMessageBroker : MessageBroker :=
  { messages := [], nextID := 1 }

/-- Embeds AddMessage (lines 32-49): build the message from nextID and the
current time, increment nextID, append, and keep only the last 100 entries
when the slice exceeds 100.  Returns the new broker state and the message,
mirroring the mutation plus return value of the Go method. -/
def AddMessage (mb : MessageBroker) (text : String) (now : Nat) :
    MessageBroker × Message :=
  let msg : Message := { id := mb.nextID, text := text, timestamp := now }
  let appended := mb.messages ++ [msg]
  let trimmed :=
    if appended.length > 100 then appended.drop (appended.length - 100)
    else appended
  ({ messages := trimmed, nextID := mb.nextID + 1 }, msg)

/-- A sequence of publishes: fold AddMessage over (text, time) pairs. -/
def addAll (mb : MessageBroker) (ts : List (String × Nat)) : MessageBroker :=
  ts.foldl (fun b p => (AddMessage b p.1 p.2).1) mb

/-- Embeds the snapshot scan inside GetMessagesSince (lines 54-61): collect,
in storage order, every resident message with ID > sinceID. -/
def querySince (sinceID : Int) (msgs : List Message) : List Message :=
  msgs.filter (fun m => sinceID < m.id)

/-- Embeds GetAllMessages (lines 75-82): a copy of the resident slice. -/
def GetAllMessages (mb : MessageBroker) : List Message :=
  mb.messages

/-- Embeds the polling loop of GetMessagesSince (lines 51-73).  `snaps i` is
the broker's messages slice observed at the i-th iteration; `fuel` is the
number of 100 ms sleeps that still fit before `time.Since(start) >= timeout`
holds at the check.  Each round returns the scan when it is non-empty,
otherwise returns the empty slice once the deadline has passed, otherwise
sleeps and rescans. -/
def waitFrom (sinceID : Int) (snaps : Nat → List Message) :
    Nat → Nat → List Message
  | i, 0 =>
    let nm := querySince sinceID (snaps i)
    if nm.length > 0 then nm else []
  | i, fuel + 1 =>
    let nm := querySince sinceID (snaps i)
    if nm.length > 0 then nm else waitFrom sinceID snaps (i + 1) fuel

/-- GetMessagesSince (lines 51-73) started at its first iteration. -/
def GetMessagesSince (sinceID : Int) (snaps : Nat → List Message)
    (fuel : Nat) : List Message :=
  waitFrom sinceID snaps 0 fuel

/-- The full trace of messages produced by publishing `ts` with ids counting
up from `startID`: the history of everything ever published. -/
def mkTrace (ts : List (String × Nat)) (startID : Int) : List Message :=
  match ts with
  | [] => []
  | (t, now) :: rest =>
    { id := startID, text := t, timestamp := now } :: mkTrace rest (startID + 1)

/-- The ascending id run s, s+1, ..., s+n-1. -/
def idsFrom (s : Int) : Nat → List Int
  | 0 => []
  | n + 1 => s :: idsFrom (s + 1) n

/-- Concrete message fixture used by witnesses. -/
def msgA : Message := { id := 1, text := "a", timestamp := 0 }

/-- Embeds the digit scan of strconv.Atoi: the value of a non-empty run of
decimal digits, `none` on an empty run or any non-digit character. -/
def digitsVal (cs : List Char) : Option Nat :=
  if cs = [] then none
  else
    cs.foldl
      (fun acc c =>
        match acc with
        | none => none
        | some n => if c.isDigit then some (n * 10 + (c.toNat - 48)) else none)
      (some 0)

/-- Embeds strconv.Atoi as used by handlePoll: optional sign, decimal
digits, int64 range check; any failure yields `none` (err != nil). -/
def atoi (s : String) : Option Int :=
  match s.data with
  | '+' :: rest =>
    (digitsVal rest).bind fun n =>
      if n ≤ 2 ^ 63 - 1 then some (Int.ofNat n) else none
  | '-' :: rest =>
    (digitsVal rest).bind fun n =>
      if n ≤ 2 ^ 63 then some (-(Int.ofNat n : Int)) else none
  | cs =>
    (digitsVal cs).bind fun n =>
      if n ≤ 2 ^ 63 - 1 then some (Int.ofNat n) else none

/-- Embeds the sinceID parsing of handlePoll (lines 87-93): default 0, and
the parsed value only when the query parameter is non-empty and Atoi
succeeds.  An absent parameter reads as "" from the query. -/
def pollSinceID (s : String) : Int :=
  if s ≠ "" then
    match atoi s with
    | some v => v
    | none => 0
  else 0

/-- Embeds the timeout parsing of handlePoll (lines 95-101), in seconds:
default 30, and the parsed value only when the parameter is non-empty,
Atoi succeeds and 0 < t <= 60. -/
def pollTimeout (s : String) : Int :=
  if s ≠ "" then
    match atoi s with
    | some t => if 0 < t ∧ t ≤ 60 then t else 30
    | none => 30
  else 30

end LongPolling

namespace SSE

/-- A buffered Go channel of strings: its buffered contents (oldest first)
and whether it has been closed. -/
structure Chan where
  buf : List String
  closed : Bool
deriving DecidableEq

/-- Embeds the Broker of src/sse/main.go lines 12-18: the clients map is
the set of registered handles; the channels themselves live in the heap
`chans`, indexed by the opaque handle a `chan string` value is. -/
structure Broker where
  clients : List Nat
  chans : Nat → Chan

/-- Embeds newBroker (lines 20-27) over a heap of fresh channels: handleSSE
creates each channel as `make(chan string, 10)`, i.e. empty and open. -/
def newBroker : Broker :=
  { clients := [], chans := fun _ => { buf := [], closed := false } }

/-- Embeds the `case client := <-b.register` branch of Broker.run
(lines 32-37): insert the handle into the clients map. -/
def register (b : Broker) (h : Nat) : Broker :=
  { b with clients := if h ∈ b.clients then b.clients else h :: b.clients }

/-- Embeds the `case client := <-b.unregister` branch of Broker.run
(lines 39-47): when the handle is present, delete it from the map and close
its channel; otherwise do nothing. -/
def unregister (b : Broker) (h : Nat) : Broker :=
  if h ∈ b.clients then
    { clients := b.clients.erase h,
      chans := fun x =>
        if x = h then { b.chans h with closed := true } else b.chans x }
  else b

/-- Embeds the non-blocking send `select { case client <- msg: default: }`
(lines 52-55) on a capacity-10 channel with no waiting receiver: deliver
when the buffer has room, otherwise drop. -/
def sendNB (q : List String) (msg : String) : List String :=
  if q.length < 10 then q ++ [msg] else q

/-- Embeds the `case msg := <-b.broadcast` branch of Broker.run
(lines 49-57): attempt a non-blocking send to every registered client. -/
def broadcast (b : Broker) (msg : String) : Broker :=
  { b with
    chans := fun x =>
      if x ∈ b.clients then
        { b.chans x with buf := sendNB (b.chans x).buf msg }
      else b.chans x }

/-- Iterated broadcasts, in order. -/
def broadcastList (b : Broker) : List String → Broker
  | [] => b
  | m :: rest => broadcastList (broadcast b m) rest

/-- Receiving from a channel, as handleSSE does at `msg, ok := <-client`
(line 90): a buffered item is delivered (ok = true); an empty closed
channel yields end-of-stream (ok = false, `some none` here); an empty open
channel blocks (`none` here). -/
def chanRead (c : Chan) : Option (Option (String × Chan)) :=
  match c.buf with
  | s :: rest => some (some (s, { buf := rest, closed := c.closed }))
  | [] => if c.closed then some none else none

/-- A broker with one registered subscriber on a fresh channel. -/
def sseOne : Broker :=
  { clients := [0], chans := fun _ => { buf := [], closed := false } }

end SSE

namespace WS

/-- A WebSocket connection: the text frames successfully written to it and
whether it has been closed.  WriteMessage on a closed connection fails (the
hub only logs the error), so it delivers nothing. -/
structure Conn where
  written : List String
  closed : Bool
deriving DecidableEq

/-- Embeds the Hub of src/streaming/main.go (second program, lines
405-411): the clients map as the set of registered handles, the
connections in a heap indexed by handle. -/
structure Hub where
  clients : List Nat
  conns : Nat → Conn

/-- Embeds WriteMessage: append the frame when the connection is open,
fail (deliver nothing) when it is closed. -/
def write (c : Conn) (msg : String) : Conn :=
  if c.closed then c else { c with written := c.written ++ [msg] }

/-- Embeds the `case conn := <-h.register` branch of Hub.run. -/
def register (hb : Hub) (h : Nat) : Hub :=
  { hb with clients := if h ∈ hb.clients then hb.clients else h :: hb.clients }

/-- Embeds the `case conn := <-h.unregister` branch of Hub.run: when the
handle is present, delete it from the map and close the connection;
otherwise do nothing. -/
def unregister (hb : Hub) (h : Nat) : Hub :=
  if h ∈ hb.clients then
    { clients := hb.clients.erase h,
      conns := fun x =>
        if x = h then { hb.conns h with closed := true } else hb.conns x }
  else hb

/-- Embeds the `case message := <-h.broadcast` branch of Hub.run: a direct,
synchronous WriteMessage to every registered connection - there is no
per-subscriber queue and nothing is dropped when a subscriber lags. -/
def broadcast (hb : Hub) (msg : String) : Hub :=
  { hb with
    conns := fun x =>
      if x ∈ hb.clients then write (hb.conns x) msg else hb.conns x }

/-- Iterated broadcasts of the same payload. -/
def broadcastN (hb : Hub) (msg : String) : Nat → Hub
  | 0 => hb
  | n + 1 => broadcastN (broadcast hb msg) msg n

/-- A direct write to one connection, as the echo path does. -/
def writeTo (hb : Hub) (h : Nat) (msg : String) : Hub :=
  { hb with
    conns := fun x => if x = h then write (hb.conns x) msg else hb.conns x }

/-- WebSocket frame types relevant to the handler. -/
inductive MsgType where
  | text
  | binary
deriving DecidableEq

/-- Embeds one iteration of the read loop of handleWebSocket (lines
466-488): a text frame equal to the literal token "broadcast" makes the
handler send the server-generated announcement string to the hub's
broadcast channel; any other text frame is echoed back to the sender's own
connection prefixed with "Echo: "; non-text frames are ignored. -/
def handleInbound (hb : Hub) (selfH : Nat) (remoteAddr : String)
    (mt : MsgType) (message : String) : Hub :=
  match mt with
  | .text =>
    if message = "broadcast" then
      broadcast hb ("Broadcast from server at " ++ remoteAddr)
    else writeTo hb selfH ("Echo: " ++ message)
  | .binary => hb

/-- A hub with a single registered, never-draining subscriber. -/
def hubOne : Hub :=
  { clients := [0], conns := fun _ => { written := [], closed := false } }

/-- A hub with two registered connections; handle 1 acts as the sender. -/
def hubTwo : Hub :=
  { clients := [0, 1], conns := fun _ => { written := [], closed := false } }

end WS

namespace LongPolling

theorem addMessage_nextID (mb : MessageBroker) (t : String) (now : Nat) :
    ((AddMessage mb t now).1).nextID = mb.nextID + 1 := rfl

theorem addMessage_messages (mb : MessageBroker) (t : String) (now : Nat) :
    ((AddMessage mb t now).1).messages =
      (mb.messages ++
          [({ id := mb.nextID, text := t, timestamp := now } : Message)]).drop
        ((mb.messages.length + 1) - 100) := by
  show (if (mb.messages ++
          [({ id := mb.nextID, text := t, timestamp := now } : Message)]).length > 100
        then (mb.messages ++
          [({ id := mb.nextID, text := t, timestamp := now } : Message)]).drop
            ((mb.messages ++
              [({ id := mb.nextID, text := t, timestamp := now } : Message)]).length - 100)
        else mb.messages ++
          [({ id := mb.nextID, text := t, timestamp := now } : Message)]) = _
  have hl : (mb.messages ++
      [({ id := mb.nextID, text := t, timestamp := now } : Message)]).length =
      mb.messages.length + 1 := by simp
  rw [hl]
  by_cases h : mb.messages.length + 1 > 100
  · rw [if_pos h]
  · rw [if_neg h, Nat.sub_eq_zero_of_le (by omega), List.drop_zero]

theorem mkTrace_length (ts : List (String × Nat)) (s : Int) :
    (mkTrace ts s).length = ts.length := by
  induction ts generalizing s with
  | nil => rfl
  | cons p rest ih => simp [mkTrace, ih]

theorem mkTrace_append (l1 l2 : List (String × Nat)) (s : Int) :
    mkTrace (l1 ++ l2) s = mkTrace l1 s ++ mkTrace l2 (s + l1.length) := by
  induction l1 generalizing s with
  | nil => simp [mkTrace]
  | cons p rest ih =>
    obtain ⟨t, now⟩ := p
    simp only [List.cons_append, mkTrace, List.length_cons]
    rw [show (rest ++ l2 : List (String × Nat)) = rest.append l2 from rfl] at ih
    rw [ih]
    have h9 : s + 1 + (rest.length : Int) = s + ((rest.length + 1 : Nat) : Int) := by
      push_cast; ring
    rw [h9]

theorem mkTrace_map_id (ts : List (String × Nat)) (s : Int) :
    (mkTrace ts s).map Message.id = idsFrom s ts.length := by
  induction ts generalizing s with
  | nil => rfl
  | cons p rest ih =>
    obtain ⟨t, now⟩ := p
    simp [mkTrace, idsFrom, ih]

theorem idsFrom_mem (s x : Int) (n : Nat) (h : x ∈ idsFrom s n) : s ≤ x := by
  induction n generalizing s with
  | zero => simp [idsFrom] at h
  | succ m ih =>
    simp only [idsFrom, List.mem_cons] at h
    rcases h with h | h
    · omega
    · have := ih (s + 1) h
      omega

theorem idsFrom_drop (s : Int) (n k : Nat) :
    (idsFrom s n).drop k = idsFrom (s + k) (n - k) := by
  induction n generalizing s k with
  | zero => simp [idsFrom]
  | succ m ih =>
    cases k with
    | zero => simp [idsFrom]
    | succ j =>
      show (idsFrom (s + 1) m).drop j = _
      rw [ih (s + 1) j]
      have h1 : s + 1 + (j : Int) = s + ((j + 1 : Nat) : Int) := by
        push_cast; ring
      rw [h1, show m + 1 - (j + 1) = m - j by omega]

/-- The reachable-state invariant: after publishing `ts` on a fresh broker
the resident slice is the last 100 entries of the full trace and nextID has
advanced once per publish. -/
theorem addAll_spec (ts : List (String × Nat)) :
    (addAll NewMessageBroker ts).nextID = (ts.length : Int) + 1 ∧
      (addAll NewMessageBroker ts).messages =
        (mkTrace ts 1).drop (ts.length - 100) := by
  induction ts using List.reverseRecOn with
  | nil => exact ⟨by simp [addAll, NewMessageBroker], rfl⟩
  | append_singleton l p ih =>
    obtain ⟨t, now⟩ := p
    obtain ⟨ih1, ih2⟩ := ih
    have hstep : addAll NewMessageBroker (l ++ [(t, now)]) =
        (AddMessage (addAll NewMessageBroker l) t now).1 := by
      simp [addAll, List.foldl_append]
    set b := addAll NewMessageBroker l with hb
    set n := l.length with hn
    have hlen : b.messages.length = n - (n - 100) := by
      rw [ih2, List.length_drop, mkTrace_length]
    constructor
    · rw [hstep, addMessage_nextID, ih1, List.length_append,
        List.length_singleton]
      push_cast
      omega
    · rw [hstep, addMessage_messages, ih2, ih1]
      have hT : (mkTrace l 1).length = n := mkTrace_length l 1
      have htr : mkTrace (l ++ [(t, now)]) 1 =
          mkTrace l 1 ++
            [({ id := (n : Int) + 1, text := t, timestamp := now } : Message)] := by
        rw [mkTrace_append]
        have h9 : (1 : Int) + (l.length : Int) = (n : Int) + 1 := by
          rw [← hn]; ring
        simp only [mkTrace, h9]
      have h1 : (mkTrace l 1).drop (n - 100) ++
            [({ id := (n : Int) + 1, text := t, timestamp := now } : Message)] =
          (mkTrace l 1 ++
            [({ id := (n : Int) + 1, text := t, timestamp := now } : Message)]).drop
              (n - 100) := by
        rw [List.drop_append_eq_append_drop, hT,
          show n - 100 - n = 0 by omega, List.drop_zero]
      rw [List.length_drop, hT, h1, List.drop_drop, htr]
      have hamt : n - 100 + (n - (n - 100) + 1 - 100) =
          (l ++ [(t, now)]).length - 100 := by
        rw [List.length_append, List.length_singleton]
        omega
      rw [hamt]

theorem addAll_id_pos (ts : List (String × Nat)) (m : Message)
    (hm : m ∈ (addAll NewMessageBroker ts).messages) : 1 ≤ m.id := by
  have h2 := (addAll_spec ts).2
  rw [h2] at hm
  have hm2 : m ∈ mkTrace ts 1 := List.mem_of_mem_drop hm
  have : m.id ∈ (mkTrace ts 1).map Message.id := List.mem_map_of_mem Message.id hm2
  rw [mkTrace_map_id] at this
  exact idsFrom_mem 1 m.id ts.length this

theorem querySince_eq_self (msgs : List Message)
    (h : ∀ m ∈ msgs, 0 < m.id) : querySince 0 msgs = msgs := by
  apply List.filter_eq_self.mpr
  intro m hm
  simpa using h m hm

theorem waitFrom_pos (sinceID : Int) (snaps : Nat → List Message)
    (i fuel : Nat) (h : querySince sinceID (snaps i) ≠ []) :
    waitFrom sinceID snaps i fuel = querySince sinceID (snaps i) := by
  have hp : (querySince sinceID (snaps i)).length > 0 := List.length_pos.mpr h
  cases fuel with
  | zero => simp only [waitFrom, if_pos hp]
  | succ f => simp only [waitFrom, if_pos hp]

theorem waitFrom_empty (sinceID : Int) (snaps : Nat → List Message)
    (i fuel : Nat) (h : ∀ j, j ≤ fuel → querySince sinceID (snaps (i + j)) = []) :
    waitFrom sinceID snaps i fuel = [] := by
  induction fuel generalizing i with
  | zero =>
    have h0 := h 0 (le_refl 0)
    simp only [Nat.add_zero] at h0
    simp only [waitFrom, h0]
    simp
  | succ f ih =>
    have h0 := h 0 (by omega)
    simp only [Nat.add_zero] at h0
    have hrest : ∀ j, j ≤ f → querySince sinceID (snaps (i + 1 + j)) = [] := by
      intro j hj
      have := h (j + 1) (by omega)
      rwa [show i + (j + 1) = i + 1 + j by omega] at this
    simp only [waitFrom, h0]
    simpa using ih (i + 1) hrest

theorem querySince_nonpos (sinceID : Int) (msgs : List Message)
    (h0 : sinceID ≤ 0) (hpos : ∀ m ∈ msgs, 1 ≤ m.id) :
    querySince sinceID msgs = querySince 0 msgs := by
  apply List.filter_congr
  intro m hm
  have := hpos m hm
  simp only [decide_eq_decide]
  omega

theorem waitFrom_nonpos (sinceID : Int) (snaps : Nat → List Message)
    (h0 : sinceID ≤ 0) (hpos : ∀ i m, m ∈ snaps i → 1 ≤ m.id)
    (i fuel : Nat) :
    waitFrom sinceID snaps i fuel = waitFrom 0 snaps i fuel := by
  induction fuel generalizing i with
  | zero =>
    simp only [waitFrom]
    rw [querySince_nonpos sinceID (snaps i) h0 (hpos i)]
  | succ f ih =>
    simp only [waitFrom]
    rw [querySince_nonpos sinceID (snaps i) h0 (hpos i), ih (i + 1)]

theorem not_mem_erase_self (l : List Nat) (a : Nat) (hnd : l.Nodup) :
    a ∉ l.erase a := by
  induction l with
  | nil => simp
  | cons x xs ih =>
    rcases List.nodup_cons.mp hnd with ⟨hx, hxs⟩
    by_cases hax : x = a
    · subst hax
      rw [List.erase_cons_head]
      exact hx
    · rw [List.erase_cons_tail (by simpa using hax)]
      intro hmem
      rcases List.mem_cons.mp hmem with h1 | h1
      · exact hax h1.symm
      · exact ih hxs h1

end LongPolling

namespace SSE

theorem not_mem_unregister (b : Broker) (h : Nat) (hnd : b.clients.Nodup) :
    h ∉ (unregister b h).clients := by
  unfold unregister
  by_cases hc : h ∈ b.clients
  · rw [if_pos hc]
    exact LongPolling.not_mem_erase_self b.clients h hnd
  · rw [if_neg hc]
    exact hc

theorem broadcastList_bound (msgs : List String) (b : Broker) (h : Nat)
    (hle : (b.chans h).buf.length ≤ 10) :
    ((broadcastList b msgs).chans h).buf.length ≤ 10 := by
  induction msgs generalizing b with
  | nil => exact hle
  | cons m rest ih =>
    apply ih
    unfold broadcast sendNB
    by_cases hc : h ∈ b.clients
    · simp only [if_pos hc]
      by_cases hl : (b.chans h).buf.length < 10
      · simp [hl]
        omega
      · simp [hl]
        exact hle
    · simp only [if_neg hc]
      exact hle

end SSE

namespace WS

theorem not_mem_unregister_hub (hb : Hub) (h : Nat) (hnd : hb.clients.Nodup) :
    h ∉ (unregister hb h).clients := by
  unfold unregister
  by_cases hc : h ∈ hb.clients
  · rw [if_pos hc]
    exact LongPolling.not_mem_erase_self hb.clients h hnd
  · rw [if_neg hc]
    exact hc

end WS

open LongPolling in
/-- Claim C1: starting from a newly constructed broker, after any sequence
of N publishes with 1 <= N <= 100, the query-since-0 scan (and equally
GetAllMessages) returns exactly N messages whose ids are 1..N in ascending
order, and the full GetMessagesSince call returns the same list for every
timeout. -/
theorem publish_sequence_query_all (ts : List (String × Nat))
    (h1 : 1 ≤ ts.length) (h2 : ts.length ≤ 100) :
    querySince 0 (addAll NewMessageBroker ts).messages =
        (addAll NewMessageBroker ts).messages ∧
      GetAllMessages (addAll NewMessageBroker ts) =
        (addAll NewMessageBroker ts).messages ∧
      (addAll NewMessageBroker ts).messages.length = ts.length ∧
      (addAll NewMessageBroker ts).messages.map Message.id =
        idsFrom 1 ts.length ∧
      ∀ fuel,
        GetMessagesSince 0 (fun _ => (addAll NewMessageBroker ts).messages)
            fuel =
          (addAll NewMessageBroker ts).messages := by
  have hs := addAll_spec ts
  have hmsg : (addAll NewMessageBroker ts).messages = mkTrace ts 1 := by
    rw [hs.2, Nat.sub_eq_zero_of_le h2, List.drop_zero]
  have hmap : (addAll NewMessageBroker ts).messages.map Message.id =
      idsFrom 1 ts.length := by
    rw [hmsg, mkTrace_map_id]
  have hq : querySince 0 (addAll NewMessageBroker ts).messages =
      (addAll NewMessageBroker ts).messages :=
    querySince_eq_self _ (fun m hm => by
      have := addAll_id_pos ts m hm
      omega)
  have hlen : (addAll NewMessageBroker ts).messages.length = ts.length := by
    rw [hmsg, mkTrace_length]
  have hne : (addAll NewMessageBroker ts).messages ≠ [] := by
    intro hcon
    rw [hcon] at hlen
    simp at hlen
    omega
  refine ⟨hq, rfl, hlen, hmap, ?_⟩
  intro fuel
  rw [GetMessagesSince, waitFrom_pos 0 _ 0 fuel (by simpa [hq] using hne)]
  exact hq

open LongPolling in
/-- Witness for C1 at a concrete two-publish run. -/
theorem publish_sequence_query_all_witness :
    querySince 0 (addAll NewMessageBroker [("a", 0), ("b", 1)]).messages =
        (addAll NewMessageBroker [("a", 0), ("b", 1)]).messages ∧
      (addAll NewMessageBroker [("a", 0), ("b", 1)]).messages.length = 2 :=
  ⟨(publish_sequence_query_all [("a", 0), ("b", 1)] (by decide) (by decide)).1,
   (publish_sequence_query_all [("a", 0), ("b", 1)] (by decide)
      (by decide)).2.2.1⟩

open LongPolling in
/-- Claim C2: after 100 + k publishes (k >= 1) the query-since-0 scan is
exactly the 100 most recently published messages, oldest first (ids
k+1..k+100 ascending); and for every publish sequence the resident slice is
a contiguous ascending-by-id suffix of the trace of everything published. -/
theorem capacity_window (ts : List (String × Nat)) (k : Nat) (hk : 1 ≤ k)
    (hlen : ts.length = 100 + k) :
    querySince 0 (addAll NewMessageBroker ts).messages =
        (addAll NewMessageBroker ts).messages ∧
      (addAll NewMessageBroker ts).messages = (mkTrace ts 1).drop k ∧
      (addAll NewMessageBroker ts).messages.length = 100 ∧
      (addAll NewMessageBroker ts).messages.map Message.id =
        idsFrom (1 + (k : Int)) 100 ∧
      ∀ ts2 : List (String × Nat),
        (addAll NewMessageBroker ts2).messages.IsSuffix (mkTrace ts2 1) ∧
          (addAll NewMessageBroker ts2).messages.map Message.id =
            idsFrom (1 + ((ts2.length - 100 : Nat) : Int))
              (ts2.length - (ts2.length - 100)) := by
  have hs := addAll_spec ts
  have hdropk : ts.length - 100 = k := by omega
  have hmsg : (addAll NewMessageBroker ts).messages = (mkTrace ts 1).drop k := by
    rw [hs.2, hdropk]
  have hq : querySince 0 (addAll NewMessageBroker ts).messages =
      (addAll NewMessageBroker ts).messages :=
    querySince_eq_self _ (fun m hm => by
      have := addAll_id_pos ts m hm
      omega)
  refine ⟨hq, hmsg, ?_, ?_, ?_⟩
  · rw [hmsg, List.length_drop, mkTrace_length, hlen]
    omega
  · rw [hmsg, List.map_drop, mkTrace_map_id, idsFrom_drop, hlen,
      show 100 + k - k = 100 by omega]
  · intro ts2
    constructor
    · rw [(addAll_spec ts2).2]
      exact List.drop_suffix _ _
    · rw [(addAll_spec ts2).2, List.map_drop, mkTrace_map_id, idsFrom_drop]

open LongPolling in
/-- Witness for C2 at a concrete 101-publish run. -/
theorem capacity_window_witness :
    (addAll NewMessageBroker (List.replicate 101 ("m", 0))).messages =
        (mkTrace (List.replicate 101 ("m", 0)) 1).drop 1 ∧
      (addAll NewMessageBroker (List.replicate 101 ("m", 0))).messages.length =
        100 :=
  ⟨(capacity_window (List.replicate 101 ("m", 0)) 1 (by decide)
      (by simp)).2.1,
   (capacity_window (List.replicate 101 ("m", 0)) 1 (by decide)
      (by simp)).2.2.1⟩

open LongPolling in
/-- Claim C4: when the query-since scan is non-empty at the moment wait is
called (iteration 0), GetMessagesSince returns exactly that scan for every
fuel budget, in particular for a zero timeout (fuel 0), without consuming
any polling round. -/
theorem wait_returns_immediately (sinceID : Int)
    (snaps : Nat → List Message) (fuel : Nat)
    (h : querySince sinceID (snaps 0) ≠ []) :
    GetMessagesSince sinceID snaps fuel = querySince sinceID (snaps 0) :=
  waitFrom_pos sinceID snaps 0 fuel h

open LongPolling in
/-- Witness for C4: one resident message, zero timeout. -/
theorem wait_returns_immediately_witness :
    GetMessagesSince 0 (fun _ => [msgA]) 0 = [msgA] :=
  (wait_returns_immediately 0 (fun _ => [msgA]) 0 (by decide)).trans
    (by decide)

open LongPolling in
/-- Claim C5: when no message with id greater than sinceID is resident at
any polling round up to the deadline, GetMessagesSince returns the empty
list - a normal value of the result type, with no error channel at all in
the source signature. -/
theorem wait_timeout_returns_empty (sinceID : Int)
    (snaps : Nat → List Message) (fuel : Nat)
    (h : ∀ j, j ≤ fuel → querySince sinceID (snaps j) = []) :
    GetMessagesSince sinceID snaps fuel = [] := by
  apply waitFrom_empty
  intro j hj
  simpa using h j hj

open LongPolling in
/-- Witness for C5: an always-empty history. -/
theorem wait_timeout_returns_empty_witness :
    GetMessagesSince 7 (fun _ => []) 3 = [] :=
  wait_timeout_returns_empty 7 (fun _ => []) 3 (fun _ _ => rfl)

open LongPolling in
/-- Claim C10: every assigned message id is at least 1, so GetMessagesSince
with any non-positive sinceID (negative values from the wire included)
returns exactly what GetMessagesSince with the default sinceID 0 does. -/
theorem nonpos_since_equals_zero (sinceID : Int)
    (snaps : Nat → List Message) (fuel : Nat) (h0 : sinceID ≤ 0)
    (hpos : ∀ i m, m ∈ snaps i → 1 ≤ m.id) :
    GetMessagesSince sinceID snaps fuel = GetMessagesSince 0 snaps fuel ∧
      ∀ ts m, m ∈ (addAll NewMessageBroker ts).messages → 1 ≤ m.id :=
  ⟨waitFrom_nonpos sinceID snaps h0 hpos 0 fuel, addAll_id_pos⟩

open LongPolling in
/-- Witness for C10 at sinceID = -5. -/
theorem nonpos_since_equals_zero_witness :
    GetMessagesSince (-5) (fun _ => [msgA]) 2 =
      GetMessagesSince 0 (fun _ => [msgA]) 2 :=
  (nonpos_since_equals_zero (-5) (fun _ => [msgA]) 2 (by decide)
    (fun i m hm => by
      have hme : m = msgA := by simpa using hm
      rw [hme]
      decide)).1

/-- Claim C3 counterexample: in the WebSocket Hub there is no per-subscriber
queue at all - Hub.run writes synchronously to every registered connection -
so a subscriber that never drains observes 11 payloads after 11 broadcasts,
not at most 10.  The claimed bound fails on this fan-out path. -/
theorem hub_broadcast_unbounded :
    ((WS.broadcastN WS.hubOne "m" 11).conns 0).written.length = 11 ∧
      ¬((WS.broadcastN WS.hubOne "m" 11).conns 0).written.length ≤ 10 := by
  decide

/-- Claim C3 (amended): the drop-when-full, non-blocking delivery policy
with queue capacity K = 10 holds for the SSE broker: a full queue means the
payload is dropped for that subscriber only, a queue with room receives the
payload, unregistered handles are untouched, and a subscriber that never
drains holds at most 10 buffered payloads after any number of broadcasts.
The WebSocket hub has no such queue (see the counterexample); broadcast
there is a plain function on every path, never a partial one. -/
theorem sse_broadcast_drop_policy (b : SSE.Broker) (h : Nat) (msg : String) :
    (h ∈ b.clients → 10 ≤ (b.chans h).buf.length →
      ((SSE.broadcast b msg).chans h).buf = (b.chans h).buf) ∧
      (h ∈ b.clients → (b.chans h).buf.length < 10 →
        ((SSE.broadcast b msg).chans h).buf = (b.chans h).buf ++ [msg]) ∧
      (h ∉ b.clients → (SSE.broadcast b msg).chans h = b.chans h) ∧
      ((b.chans h).buf.length ≤ 10 →
        ∀ msgs : List String,
          ((SSE.broadcastList b msgs).chans h).buf.length ≤ 10) := by
  refine ⟨?_, ?_, ?_, ?_⟩
  · intro hc hfull
    simp only [SSE.broadcast, if_pos hc, SSE.sendNB]
    rw [if_neg (by omega)]
  · intro hc hroom
    simp only [SSE.broadcast, if_pos hc, SSE.sendNB]
    rw [if_pos hroom]
  · intro hc
    simp only [SSE.broadcast, if_neg hc]
  · intro hle msgs
    exact SSE.broadcastList_bound msgs b h hle

/-- Witness for the amended C3: a registered subscriber with an empty queue
receives the payload. -/
theorem sse_broadcast_drop_policy_witness :
    ((SSE.broadcast SSE.sseOne "m").chans 0).buf = [] ++ ["m"] :=
  (sse_broadcast_drop_policy SSE.sseOne 0 "m").2.1 (by decide) (by decide)

/-- Claim C6: once a handle is unregistered it is no longer in the clients
map, a subsequent broadcast leaves its channel untouched, registering twice
equals registering once, one broadcast appends at most one payload to any
queue, and the concrete register-unregister-broadcast scenario delivers
nothing to the handle. -/
theorem unregistered_handle_gets_nothing (b : SSE.Broker) (h : Nat)
    (msg : String) (hnd : b.clients.Nodup) :
    h ∉ (SSE.unregister b h).clients ∧
      (SSE.broadcast (SSE.unregister b h) msg).chans h =
        (SSE.unregister b h).chans h ∧
      SSE.register (SSE.register b h) h = SSE.register b h ∧
      ((SSE.broadcast b msg).chans h).buf.length ≤
        (b.chans h).buf.length + 1 ∧
      ((SSE.broadcast (SSE.unregister (SSE.register SSE.newBroker 0) 0)
          "x").chans 0).buf = [] := by
  have hmem := SSE.not_mem_unregister b h hnd
  refine ⟨hmem, ?_, ?_, ?_, by decide⟩
  · simp only [SSE.broadcast, if_neg hmem]
  · unfold SSE.register
    by_cases hc : h ∈ b.clients
    · simp [hc]
    · simp [hc]
  · unfold SSE.broadcast SSE.sendNB
    by_cases hc : h ∈ b.clients
    · simp only [if_pos hc]
      by_cases hl : (b.chans h).buf.length < 10
      · simp [hl]
      · simp [hl]
    · simp only [if_neg hc]
      omega

/-- Witness for C6 on a one-subscriber broker. -/
theorem unregistered_handle_gets_nothing_witness :
    0 ∉ (SSE.unregister SSE.sseOne 0).clients :=
  (unregistered_handle_gets_nothing SSE.sseOne 0 "m" (by decide)).1

/-- Claim C7: unregister is idempotent in both fan-out brokers - unknown or
already-removed handles are a no-op and applying it twice equals applying it
once - and a successful unregister closes the subscriber's queue, so a read
on the closed channel never blocks: it yields a buffered item or
end-of-stream. -/
theorem unregister_idempotent_closes (b : SSE.Broker) (hb : WS.Hub)
    (h : Nat) (hnd : b.clients.Nodup) (hnd2 : hb.clients.Nodup) :
    (h ∉ b.clients → SSE.unregister b h = b) ∧
      SSE.unregister (SSE.unregister b h) h = SSE.unregister b h ∧
      (h ∈ b.clients → ((SSE.unregister b h).chans h).closed = true) ∧
      (∀ c : SSE.Chan, c.closed = true → SSE.chanRead c ≠ none) ∧
      (h ∉ hb.clients → WS.unregister hb h = hb) ∧
      WS.unregister (WS.unregister hb h) h = WS.unregister hb h ∧
      (h ∈ hb.clients → ((WS.unregister hb h).conns h).closed = true) := by
  refine ⟨?_, ?_, ?_, ?_, ?_, ?_, ?_⟩
  · intro hm
    unfold SSE.unregister
    rw [if_neg hm]
  · have hmem := SSE.not_mem_unregister b h hnd
    conv_lhs => rw [SSE.unregister]
    rw [if_neg hmem]
  · intro hc
    unfold SSE.unregister
    rw [if_pos hc]
    simp
  · intro c hcl
    unfold SSE.chanRead
    cases hbuf : c.buf with
    | nil => simp [hcl]
    | cons s rest => simp
  · intro hm
    unfold WS.unregister
    rw [if_neg hm]
  · have hmem := WS.not_mem_unregister_hub hb h hnd2
    conv_lhs => rw [WS.unregister]
    rw [if_neg hmem]
  · intro hc
    unfold WS.unregister
    rw [if_pos hc]
    simp

/-- Witness for C7 on one-subscriber fixtures. -/
theorem unregister_idempotent_closes_witness :
    SSE.unregister (SSE.unregister SSE.sseOne 0) 0 =
      SSE.unregister SSE.sseOne 0 :=
  (unregister_idempotent_closes SSE.sseOne WS.hubOne 0 (by decide)
    (by decide)).2.1

/-- Claim C8 counterexample: on the control token "broadcast" the handler
delivers the server-generated announcement string to the subscribers, not
the inbound payload itself - the delivered string differs from the payload
"broadcast" that was received. -/
theorem ws_broadcast_token_payload :
    ((WS.handleInbound WS.hubTwo 1 "1.2.3.4" WS.MsgType.text
        "broadcast").conns 0).written =
        ["Broadcast from server at 1.2.3.4"] ∧
      ("Broadcast from server at 1.2.3.4" : String) ≠ "broadcast" := by
  decide

/-- Claim C8 (amended): an inbound text frame equal to the literal token
"broadcast" makes the handler write the server-generated string "Broadcast
from server at addr" to every registered connection (nothing is echoed);
every other inbound text frame is echoed back to the sender's own
connection only, prefixed with "Echo: ", leaving all other connections
untouched. -/
theorem ws_inbound_routing (hb : WS.Hub) (h : Nat) (addr msg : String) :
    (msg = "broadcast" →
      (∀ x, x ∈ hb.clients →
        (WS.handleInbound hb h addr WS.MsgType.text msg).conns x =
          WS.write (hb.conns x) ("Broadcast from server at " ++ addr)) ∧
      (∀ x, x ∉ hb.clients →
        (WS.handleInbound hb h addr WS.MsgType.text msg).conns x =
          hb.conns x)) ∧
    (msg ≠ "broadcast" →
      ((WS.handleInbound hb h addr WS.MsgType.text msg).conns h =
        WS.write (hb.conns h) ("Echo: " ++ msg)) ∧
      (∀ x, x ≠ h →
        (WS.handleInbound hb h addr WS.MsgType.text msg).conns x =
          hb.conns x)) := by
  constructor
  · intro hmsg
    constructor
    · intro x hx
      simp only [WS.handleInbound, if_pos hmsg, WS.broadcast, if_pos hx]
    · intro x hx
      simp only [WS.handleInbound, if_pos hmsg, WS.broadcast, if_neg hx]
  · intro hmsg
    constructor
    · simp only [WS.handleInbound, if_neg hmsg, WS.writeTo]
      simp
    · intro x hx
      simp only [WS.handleInbound, if_neg hmsg, WS.writeTo, if_neg hx]

/-- Witness for the amended C8: a non-token frame is echoed to the sender. -/
theorem ws_inbound_routing_witness :
    (WS.handleInbound WS.hubTwo 1 "a" WS.MsgType.text "hi").conns 1 =
      WS.write (WS.hubTwo.conns 1) ("Echo: " ++ "hi") :=
  ((ws_inbound_routing WS.hubTwo 1 "a" "hi").2 (by decide)).1

open LongPolling in
/-- Claim C9: the poll adapter validates locally - the timeout handed to
the broker is always between 1 and 60 seconds, defaulting to 30 when the
parameter is absent, unparseable or out of range, and sinceID defaults to 0
when the parameter is absent or malformed, so no malformed value reaches
the broker core. -/
theorem handlePoll_validates (s ts : String) :
    (1 ≤ pollTimeout ts ∧ pollTimeout ts ≤ 60) ∧
      (ts = "" → pollTimeout ts = 30) ∧
      (atoi ts = none → pollTimeout ts = 30) ∧
      (∀ t, atoi ts = some t → t ≤ 0 ∨ 60 < t → pollTimeout ts = 30) ∧
      (s = "" → pollSinceID s = 0) ∧
      (atoi s = none → pollSinceID s = 0) := by
  refine ⟨?_, ?_, ?_, ?_, ?_, ?_⟩
  · unfold pollTimeout
    by_cases he : ts = ""
    · rw [if_neg (fun hne => hne he)]
      norm_num
    · rw [if_pos he]
      cases ha : atoi ts with
      | none => norm_num
      | some t =>
        by_cases hc : 0 < t ∧ t ≤ 60
        · simp only [if_pos hc]
          omega
        · simp only [if_neg hc]
          norm_num
  · intro he
    unfold pollTimeout
    rw [if_neg (fun hne => hne he)]
  · intro ha
    unfold pollTimeout
    by_cases he : ts = ""
    · rw [if_neg (fun hne => hne he)]
    · rw [if_pos he, ha]
  · intro t ha hout
    unfold pollTimeout
    by_cases he : ts = ""
    · rw [if_neg (fun hne => hne he)]
    · rw [if_pos he, ha]
      simp only [if_neg (show ¬(0 < t ∧ t ≤ 60) by omega)]
  · intro he
    unfold pollSinceID
    rw [if_neg (fun hne => hne he)]
  · intro ha
    unfold pollSinceID
    by_cases he : s = ""
    · rw [if_neg (fun hne => hne he)]
    · rw [if_pos he, ha]

open LongPolling in
/-- Witness for C9: an out-of-range timeout falls back to 30 and a
malformed sinceID falls back to 0. -/
theorem handlePoll_validates_witness :
    pollTimeout "99" = 30 ∧ pollSinceID "abc" = 0 :=
  ⟨(handlePoll_validates "abc" "99").2.2.2.1 99 (by decide) (by decide),
   (handlePoll_validates "abc" "99").2.2.2.2.2 (by decide)⟩
